import Mathlib

/-!
Verification of the client-side request-orchestration layer of the
AI trip planner / WNBA team builder frontend.

The development shallowly embeds the functions of
`src/frontend/src/App.tsx` (the `handlePlanTrip` and `handleBuildRoster`
submit handlers), `src/frontend/src/performance-config.js`
(`PERFORMANCE_CONFIG`, `PerformanceUtils.debounce`,
`PerformanceUtils.throttle`), the form components
(`RosterBuilderForm.handleSubmit` / `isFormValid`,
`TripPlannerForm.handleSubmit` / `isFormValid`) and the
`checkModelHealth` pollers of the two `RosterBuilderForm` variants.

Asynchronous execution is modelled by explicit event lists: a submit
handler contributes a `start` event (the code before `await fetch`) and a
`resolve` event (the continuation after the fetch settles); a run folds
the per-event state transition over the event list, which is exactly the
single-threaded event-loop semantics of the browser.
-/

namespace TripPlanner

/-- `RosterRequest` from `src/frontend/src/types/roster.ts`.
Optional fields are embedded with their observed defaults (the form
initializes `priorities` to `[]`, `cap_target` to `''`). -/
structure RosterRequest where
  team : String
  season : String
  strategy : String
  priorities : List String
  cap_target : String
  model_type : String
deriving DecidableEq, Repr

/-- `RosterResponse` from `src/frontend/src/types/roster.ts`
(`result` required, `agent_type` optional but always set on the error
path; we carry the two fields the handlers write). -/
structure RosterResponse where
  result : String
  agent_type : String
deriving DecidableEq, Repr

/-- The `api` section of `PERFORMANCE_CONFIG` in
`src/frontend/src/performance-config.js`. -/
structure ApiConfig where
  timeout : Nat
  retryAttempts : Nat
  retryDelay : Nat
  enableCaching : Bool
  cacheDuration : Nat
deriving DecidableEq, Repr

/-- `PERFORMANCE_CONFIG.api` from `src/frontend/src/performance-config.js`
lines 26-32: `{ timeout: 60000, retryAttempts: 3, retryDelay: 1000,
enableCaching: true, cacheDuration: 5 * 60 * 1000 }`. -/
def PERFORMANCE_CONFIG_api : ApiConfig :=
  { timeout := 60000
    retryAttempts := 3
    retryDelay := 1000
    enableCaching := true
    cacheDuration := 5 * 60 * 1000 }

/-- Possible settlements of the `fetch('http://localhost:8000/build-roster')`
call: a 2xx response with parsed body, a non-2xx response (the handler
throws `HTTP error! status: ${status}`), or a network-level rejection
(fetch rejects / body fails to parse) carrying the error message. -/
inductive FetchOutcome where
  | success : RosterResponse → FetchOutcome
  | httpError : Nat → FetchOutcome
  | networkError : String → FetchOutcome
deriving DecidableEq, Repr

/-- The value `handleBuildRoster` (active variant, `App.tsx` lines 505-531)
commits to `rosterResult` once the fetch settles: the parsed body on
success, and on any caught error a `RosterResponse` whose `result` is
`Error: ${message}` and whose `agent_type` is `'error'`.  For a non-2xx
status the thrown message is `HTTP error! status: ${status}`. -/
def commitOutcome : FetchOutcome → RosterResponse
  | .success r => r
  | .httpError s =>
      { result := "Error: " ++ ("HTTP error! status: " ++ toString s), agent_type := "error" }
  | .networkError m => { result := "Error: " ++ m, agent_type := "error" }

/-- Client-visible state of the active `App` component (`App.tsx` lines
502-503): `rosterResult` and `loading`.  `calls` instruments the POST
`/build-roster` requests issued so far (one per `fetch`), so that
network traffic is observable in the model. -/
structure AppState where
  rosterResult : Option RosterResponse
  loading : Bool
  calls : List RosterRequest
deriving DecidableEq, Repr

/-- Initial state: `useState<RosterResponse | null>(null)`,
`useState(false)`, no network calls issued. -/
def initState : AppState := { rosterResult := none, loading := false, calls := [] }

/-- Event-loop events of `handleBuildRoster`: `start req` is the
synchronous prefix of an invocation (set `loading`, clear
`rosterResult`, issue the fetch); `resolve i o` is the continuation run
when the `i`-th issued call settles with outcome `o`. -/
inductive Event where
  | start : RosterRequest → Event
  | resolve : Nat → FetchOutcome → Event
deriving DecidableEq, Repr

/-- One event-loop step of `handleBuildRoster` (`App.tsx` 505-531).
`start`: `setLoading(true); setRosterResult(null);` then the fetch is
issued.  `resolve`: the continuation commits `commitOutcome o` and the
`finally` clause runs `setLoading(false)`.  The source contains no
sequence-number / identity check, so the index `i` of the settling call
is ignored: every settlement is committed. -/
def step (s : AppState) : Event → AppState
  | .start req => { rosterResult := none, loading := true, calls := s.calls ++ [req] }
  | .resolve _ o => { rosterResult := some (commitOutcome o), loading := false, calls := s.calls }

/-- Run of the app from the initial state over an event list. -/
def run (evs : List Event) : AppState := evs.foldl step initState

/-- Number of `start` events (= form submissions reaching the handler). -/
def countStarts : List Event → Nat
  | [] => 0
  | .start _ :: evs => countStarts evs + 1
  | .resolve _ _ :: evs => countStarts evs

/-- Timed event: the instant (ms) at which the event is processed on the
event loop, paired with the event. -/
def timedStep (s : AppState) (te : Nat × Event) : AppState := step s te.2

/-- Timed run: fold over time-stamped events. -/
def timedRun (evs : List (Nat × Event)) : AppState := evs.foldl timedStep initState

/-- A concrete roster request used in counterexamples. -/
def reqA : RosterRequest :=
  { team := "Las Vegas Aces", season := "2025", strategy := "championship"
    priorities := [], cap_target := "", model_type := "openai" }

/-- A second concrete roster request. -/
def reqB : RosterRequest :=
  { team := "New York Liberty", season := "2025", strategy := "rebuild"
    priorities := [], cap_target := "", model_type := "openai" }

/-- Concrete successful response for submission A. -/
def respA : RosterResponse := { result := "analysis for A", agent_type := "wnba_roster" }

/-- Concrete successful response for submission B. -/
def respB : RosterResponse := { result := "analysis for B", agent_type := "wnba_roster" }

/-- Helper: length of the instrumented call list after a run equals the
initial length plus the number of `start` events — every submission
reaching the handler issues exactly one fetch, and only submissions
issue fetches. -/
theorem foldl_step_calls_length (evs : List Event) (s : AppState) :
    ((evs.foldl step s).calls).length = s.calls.length + countStarts evs := by
  induction evs generalizing s with
  | nil => simp [countStarts]
  | cons e evs ih =>
    cases e with
    | start req =>
      simp only [List.foldl_cons, countStarts, step]
      rw [ih]
      simp
      omega
    | resolve i o =>
      simp only [List.foldl_cons, countStarts, step]
      rw [ih]

/-- C1: the claim, checked at a concrete interleaving.  Submission A
(`reqA`) starts, submission B (`reqB`) starts while A is in flight, B's
call settles first with `respB`, then A's stale call settles with
`respA`.  The final client-visible state holds A's outcome, not B's:
`handleBuildRoster` has no sequence/identity check and the superseded
call's resolution overwrites the newer state. -/
theorem last_submission_wins_counterexample :
    (run [.start reqA, .start reqB, .resolve 1 (.success respB),
          .resolve 0 (.success respA)]).rosterResult = some respA ∧
    respA ≠ respB := by
  constructor
  · rfl
  · simp [respA, respB]

/-- C1 amended: the handler commits whichever resolution is applied
last (last-resolution-wins, not last-submission-wins).  For every pair
of overlapping submissions where B's call settles before A's, the final
state reflects A's outcome — a stale resolution is committed, never
discarded. -/
theorem stale_resolution_overwrites (A B : RosterRequest) (oA oB : FetchOutcome) :
    run [.start A, .start B, .resolve 1 oB, .resolve 0 oA] =
      { rosterResult := some (commitOutcome oA), loading := false, calls := [A, B] } := by
  rfl

/-- C2: the claim, checked concretely.  Submitting `reqA`, receiving a
successful response, then submitting the identical payload again causes
the handler to issue a second POST `/build-roster` call: there is no
response cache, so the claimed zero-network-call path on a repeat
submission does not exist.  (`PERFORMANCE_CONFIG.api.cacheDuration` is
300000 ms, but no handler consults it.) -/
theorem cache_first_counterexample :
    ((run [.start reqA, .resolve 0 (.success respA), .start reqA,
           .resolve 1 (.success respA)]).calls).length = 2 ∧
    PERFORMANCE_CONFIG_api.cacheDuration = 300000 := by
  constructor <;> rfl

/-- C2 amended: no response cache exists in the submit path — every
submission reaching `handleBuildRoster` issues exactly one POST
`/build-roster` network call, identical payloads included; the
`PERFORMANCE_CONFIG.api` constants (`enableCaching: true`,
`cacheDuration: 300000` ms) are declared but unused by the handler. -/
theorem every_submit_issues_one_call (evs : List Event) :
    ((run evs).calls).length = countStarts evs ∧
    PERFORMANCE_CONFIG_api.enableCaching = true ∧
    PERFORMANCE_CONFIG_api.cacheDuration = 300000 := by
  refine ⟨?_, rfl, rfl⟩
  have h := foldl_step_calls_length evs initState
  simpa [run, initState] using h

/-- C3: the claim, checked concretely.  A call started at t = 0 whose
response arrives at t = 100000 ms — far beyond the configured 60000 ms
bound — is committed as a success; no `Timeout` failure is synthesized
and nothing fires at the 60-second mark, because the handler never
applies `PERFORMANCE_CONFIG.api.timeout` to the fetch. -/
theorem bounded_timeout_counterexample :
    (timedRun [(0, .start reqA), (100000, .resolve 0 (.success respA))]) =
      { rosterResult := some respA, loading := false, calls := [reqA] } ∧
    PERFORMANCE_CONFIG_api.timeout = 60000 ∧ 60000 < 100000 := by
  refine ⟨rfl, rfl, by norm_num⟩

/-- `TripResponse` as consumed by `handlePlanTrip` (`App.tsx` lines
90-116, `tripResponse.agent_type` read at line 296): `{ result,
agent_type }`. -/
structure TripResponse where
  result : String
  agent_type : String
deriving DecidableEq, Repr

/-- Settlements of the `fetch('http://localhost:8000/plan-trip')` call. -/
inductive TripOutcome where
  | success : TripResponse → TripOutcome
  | httpError : Nat → TripOutcome
  | networkError : String → TripOutcome
deriving DecidableEq, Repr

/-- Client-visible state of the trip-planner `App` variant (`App.tsx`
lines 86-88): `tripResponse`, `loading`, `error`. -/
structure TripState where
  tripResponse : Option TripResponse
  loading : Bool
  error : Option String
deriving DecidableEq, Repr

/-- Complete run of one `handlePlanTrip` submission (`App.tsx` 90-116):
`setLoading(true); setError(null); setTripResponse(null)`, then the
fetch settles with outcome `o`; a non-2xx status throws
`HTTP error! status: ${status}` which the catch turns into
`setError(message)`; a network rejection's message goes to `setError`
likewise; `finally` runs `setLoading(false)`.  The function is total:
every failure is caught inside the handler. -/
def runPlanTrip : TripOutcome → TripState
  | .success d => { tripResponse := some d, loading := false, error := none }
  | .httpError s =>
      { tripResponse := none, loading := false
        error := some ("HTTP error! status: " ++ toString s) }
  | .networkError m => { tripResponse := none, loading := false, error := some m }

/-- State of the `part_001` roster `App` variant: `rosterResponse`,
`loading`, `error` (lines 86-88 of `src/unnamed/part_001`). -/
structure RosterV1State where
  rosterResponse : Option RosterResponse
  loading : Bool
  error : Option String
deriving DecidableEq, Repr

/-- Complete run of one `handleBuildRoster` submission in the
`part_001` variant (lines 90-116): identical structure to
`runPlanTrip`, committing to `rosterResponse`/`error`. -/
def runRosterV1 : FetchOutcome → RosterV1State
  | .success d => { rosterResponse := some d, loading := false, error := none }
  | .httpError s =>
      { rosterResponse := none, loading := false
        error := some ("HTTP error! status: " ++ toString s) }
  | .networkError m => { rosterResponse := none, loading := false, error := some m }

/-- C3 amended: `PERFORMANCE_CONFIG.api.timeout` is declared as
60000 ms, but the submit handlers issue the fetch without any bound:
the event-loop step is independent of the time stamp, so a resolution
arriving at any instant `t` — however far past the claimed bound — is
committed exactly as an in-time one, and no timeout-failure transition
exists. -/
theorem no_timeout_is_applied (p : RosterRequest) (r : RosterResponse) (t : Nat) :
    (timedRun [(0, .start p), (t, .resolve 0 (.success r))]).rosterResult = some r ∧
    (∀ (s : AppState) (te : Nat × Event), timedStep s te = step s te.2) ∧
    PERFORMANCE_CONFIG_api.timeout = 60000 := by
  exact ⟨rfl, fun _ _ => rfl, rfl⟩

/-- `TripRequest` from the trip-planner form
(`src/frontend/src/components/TripPlannerForm.tsx` lines 23-29). -/
structure TripRequest where
  destination : String
  duration : String
  budget : String
  interests : String
  travel_style : String
deriving DecidableEq, Repr

/-- `handleSubmit` of the roster form (`src/unnamed/part_005` lines
85-90, identically `part_004` and `part_006`): after
`event.preventDefault()`, `onSubmit(formData)` is invoked iff
`formData.team && formData.season && formData.strategy` — for strings,
JS truthiness is non-emptiness.  The result is the `onSubmit`
invocation, `none` meaning no call was made (and hence no network
request and no state transition downstream). -/
def rosterHandleSubmit (formData : RosterRequest) : Option RosterRequest :=
  if formData.team ≠ "" ∧ formData.season ≠ "" ∧ formData.strategy ≠ "" then
    some formData
  else none

/-- `isFormValid` of the roster form (`part_005` lines 92-94): the
required selects trimmed and compared against the empty string; gates
the submit button's `disabled` attribute. -/
def rosterIsFormValid (formData : RosterRequest) : Bool :=
  formData.team.trim != "" && formData.season.trim != "" && formData.strategy.trim != ""

/-- `handleSubmit` of `TripPlannerForm.tsx` (lines 47-52):
`onSubmit(formData)` iff `formData.destination && formData.duration`. -/
def tripHandleSubmit (formData : TripRequest) : Option TripRequest :=
  if formData.destination ≠ "" ∧ formData.duration ≠ "" then some formData else none

/-- `isFormValid` of `TripPlannerForm.tsx` (line 54). -/
def tripIsFormValid (formData : TripRequest) : Bool :=
  formData.destination.trim != "" && formData.duration.trim != ""

/-- Parsed JSON body of `GET /models/health`: either key may be absent
(`none` models a missing key / JS `undefined`). -/
structure HealthBody where
  openai : Option Bool
  ollama : Option Bool
deriving DecidableEq, Repr

/-- Settlement of the health probe fetch: a network-level rejection, or
a response with HTTP-ok flag and a body (`none` = body not parsable as
JSON, in which case `response.json()` throws). -/
inductive ProbeResult where
  | fetchError : ProbeResult
  | response : Bool → Option HealthBody → ProbeResult
deriving DecidableEq, Repr

/-- `checkModelHealth` of the `part_005` `RosterBuilderForm` (lines
51-60): any thrown error (fetch rejection or `json()` failure) is
caught and `setModelStatus({ openai: false, ollama: false })`; an
arriving JSON body is stored verbatim — note the code never checks
`response.ok`, so a non-2xx response with a JSON body is also stored.
The previous snapshot is never consulted. -/
def checkModelHealthV5 (_prev : HealthBody) : ProbeResult → HealthBody
  | .fetchError => { openai := some false, ollama := some false }
  | .response _ none => { openai := some false, ollama := some false }
  | .response _ (some b) => b

/-- `checkModelHealth` of the `part_006` `RosterBuilderForm` (lines
58-68): `setModelHealth(health)` runs only when `response.ok` holds and
the body parses; on a fetch rejection, a non-ok status, or an
unparsable body, the catch/branch does nothing and the previous
snapshot stays in place. -/
def checkModelHealthV6 (prev : HealthBody) : ProbeResult → HealthBody
  | .fetchError => prev
  | .response false _ => prev
  | .response true none => prev
  | .response true (some b) => b

/-- JS truthiness with which `modelStatus.openai` is read at use sites
(an absent key is `undefined`, hence falsy). -/
def availOpenai (s : HealthBody) : Bool := s.openai.getD false

/-- JS truthiness with which `modelStatus.ollama` is read. -/
def availOllama (s : HealthBody) : Bool := s.ollama.getD false

/-- `disabled` attribute of every `FormControl` of the roster form
(`part_005` lines 138-145 and the parallel controls):
`disabled={loading}`. -/
def controlDisabled (loading : Bool) : Bool := loading

/-- `disabled` attribute of the submit button (`part_005` line 374):
`disabled={!isFormValid || loading}`. -/
def submitButtonDisabled (isFormValid loading : Bool) : Bool := !isFormValid || loading

/-- UI-level state for the single-slot argument: the `loading` flag plus
the number of form-initiated `/build-roster` calls currently in
flight. -/
structure UiState where
  loading : Bool
  inflight : Nat
deriving DecidableEq, Repr

/-- UI-level events: a user submit gesture, or the settlement of the
in-flight call (the handler's `finally` clause). -/
inductive UiEvent where
  | submit : RosterRequest → UiEvent
  | settle : UiEvent
deriving DecidableEq, Repr

/-- UI-level step.  A submit gesture reaches `handleBuildRoster` only
through the form's submit button; while `loading` the button and every
control are disabled (`disabled={...loading}`), so the gesture is a
no-op.  Otherwise the handler runs `setLoading(true)` and issues the
fetch.  `settle` is the in-flight call resolving: `finally`
`setLoading(false)`. -/
def uiStep (s : UiState) : UiEvent → UiState
  | .submit _ => if s.loading then s else { loading := true, inflight := s.inflight + 1 }
  | .settle => { loading := false, inflight := s.inflight - 1 }

/-- UI run from the initial idle state. -/
def uiRun (evs : List UiEvent) : UiState := evs.foldl uiStep { loading := false, inflight := 0 }

/-- The single-slot invariant: the number of in-flight calls is exactly
the loading flag. -/
def UiInv (s : UiState) : Prop := s.inflight = if s.loading then 1 else 0

/-- Helper: `uiStep` preserves the single-slot invariant. -/
theorem uiStep_preserves_inv (s : UiState) (e : UiEvent) (h : UiInv s) : UiInv (uiStep s e) := by
  cases e with
  | submit req =>
    by_cases hl : s.loading <;> simp [uiStep, UiInv, hl] at h ⊢ <;> omega
  | settle =>
    unfold UiInv at h ⊢
    simp [uiStep]
    split at h <;> omega

/-- Helper: the invariant holds after folding any event list. -/
theorem uiFold_inv (evs : List UiEvent) (s : UiState) (h : UiInv s) :
    UiInv (evs.foldl uiStep s) := by
  induction evs generalizing s with
  | nil => exact h
  | cons e evs ih => exact ih _ (uiStep_preserves_inv s e h)

/-- C6: failure propagation.  In both cited orchestrators
(`handlePlanTrip` in `App.tsx` and `handleBuildRoster` in
`src/unnamed/part_001`): a non-2xx status yields a failed state whose
user-readable message carries the numeric status and commits no
response value (there is no cache in the submit path, so failures are
never cached); every settlement — success, HTTP error or network
error — is mapped by a total function (all failures are caught at the
handler boundary, none rethrown into rendering code) and leaves
`loading = false`, so the UI can retry. -/
theorem failure_propagation :
    (∀ o, (runPlanTrip o).loading = false) ∧
    (∀ s : Nat, runPlanTrip (.httpError s) =
      { tripResponse := none, loading := false
        error := some ("HTTP error! status: " ++ toString s) }) ∧
    (∀ m, runPlanTrip (.networkError m) =
      { tripResponse := none, loading := false, error := some m }) ∧
    (∀ o, (runRosterV1 o).loading = false) ∧
    (∀ s : Nat, runRosterV1 (.httpError s) =
      { rosterResponse := none, loading := false
        error := some ("HTTP error! status: " ++ toString s) }) ∧
    (∀ m, runRosterV1 (.networkError m) =
      { rosterResponse := none, loading := false, error := some m }) := by
  refine ⟨fun o => ?_, fun s => rfl, fun m => rfl, fun o => ?_, fun s => rfl, fun m => rfl⟩
  · cases o <;> rfl
  · cases o <;> rfl

/-- C10: failure-as-content in the active `handleBuildRoster`
(`App.tsx` 516-531).  Every failure — HTTP error with status `s` or
network error with message `m` — is committed as a `RosterResponse`
whose `result` begins with `"Error: "` and whose `agent_type` is
`'error'`, written into the same `rosterResult` slot a successful
analysis uses (the whole post-settlement state is the same shape as a
success: `rosterResult` set, `loading` cleared, nothing else — this
variant's state has no separate error field). -/
theorem failure_as_content :
    (∀ s : Nat, commitOutcome (.httpError s) =
      { result := "Error: " ++ ("HTTP error! status: " ++ toString s)
        agent_type := "error" }) ∧
    (∀ m, commitOutcome (.networkError m) =
      { result := "Error: " ++ m, agent_type := "error" }) ∧
    (∀ (st : AppState) (i : Nat) (o : FetchOutcome),
      step st (.resolve i o) =
        { rosterResult := some (commitOutcome o), loading := false, calls := st.calls }) := by
  exact ⟨fun s => rfl, fun m => rfl, fun st i o => rfl⟩

/-- C4: the claim, checked at a concrete input.  In the `part_006`
variant of `checkModelHealth`, starting from a snapshot in which both
backends read available, a refresh whose probe fails at the network
level — and likewise one that returns a non-success response — leaves
the previous stale-true snapshot in place: `openai` still reads
available, contradicting the claim that a failed probe always drives
availability to false. -/
theorem health_probe_counterexample :
    checkModelHealthV6 { openai := some true, ollama := some true } .fetchError =
      { openai := some true, ollama := some true } ∧
    availOpenai (checkModelHealthV6 { openai := some true, ollama := some true } .fetchError)
      = true ∧
    checkModelHealthV6 { openai := some true, ollama := some true } (.response false none) =
      { openai := some true, ollama := some true } := by
  exact ⟨rfl, rfl, rfl⟩

/-- C4 amended: probe-failure handling differs between the two
`checkModelHealth` variants.  In `part_005`, a network-level failure or
an unparsable body resets both backends to `false`, any JSON body
(regardless of HTTP status) replaces the snapshot verbatim, and an
absent key is read as unavailable at use sites.  In `part_006`, a
failed probe — network error, non-success response, or unparsable
body — leaves the previous (possibly stale-true) snapshot in place. -/
theorem health_probe_behavior :
    (∀ prev, checkModelHealthV5 prev .fetchError =
      { openai := some false, ollama := some false }) ∧
    (∀ prev ok, checkModelHealthV5 prev (.response ok none) =
      { openai := some false, ollama := some false }) ∧
    (∀ prev ok b, checkModelHealthV5 prev (.response ok (some b)) = b) ∧
    (∀ x, availOpenai { openai := none, ollama := x } = false) ∧
    (∀ x, availOllama { openai := x, ollama := none } = false) ∧
    (∀ prev, checkModelHealthV6 prev .fetchError = prev) ∧
    (∀ prev b, checkModelHealthV6 prev (.response false b) = prev) ∧
    (∀ prev, checkModelHealthV6 prev (.response true none) = prev) := by
  exact ⟨fun _ => rfl, fun _ _ => rfl, fun _ _ _ => rfl, fun _ => rfl, fun _ => rfl,
    fun _ => rfl, fun _ _ => rfl, fun _ => rfl⟩

/-- C5: validation gate.  For the roster form, `onSubmit` is invoked
with exactly the entered payload iff all three required fields are
non-empty, and no invocation at all happens iff some required field is
empty (hence no network call and no state transition); the same for the
legacy trip form over destination/duration. -/
theorem validation_gate (fd : RosterRequest) (td : TripRequest) :
    (rosterHandleSubmit fd = some fd ↔
      fd.team ≠ "" ∧ fd.season ≠ "" ∧ fd.strategy ≠ "") ∧
    (rosterHandleSubmit fd = none ↔
      fd.team = "" ∨ fd.season = "" ∨ fd.strategy = "") ∧
    (tripHandleSubmit td = some td ↔ td.destination ≠ "" ∧ td.duration ≠ "") ∧
    (tripHandleSubmit td = none ↔ td.destination = "" ∨ td.duration = "") := by
  refine ⟨?_, ?_, ?_, ?_⟩
  · by_cases h : fd.team ≠ "" ∧ fd.season ≠ "" ∧ fd.strategy ≠ ""
    · simp [rosterHandleSubmit, h]
    · simp only [rosterHandleSubmit, if_neg h]
      exact ⟨fun hc => Option.noConfusion hc, fun hc => absurd hc h⟩
  · by_cases h : fd.team ≠ "" ∧ fd.season ≠ "" ∧ fd.strategy ≠ ""
    · simp [rosterHandleSubmit, h]
    · simp only [rosterHandleSubmit, if_neg h]
      constructor
      · intro _
        by_contra hc
        push_neg at hc
        exact h ⟨hc.1, hc.2.1, hc.2.2⟩
      · intro _
        trivial
  · by_cases h : td.destination ≠ "" ∧ td.duration ≠ ""
    · simp [tripHandleSubmit, h]
    · simp only [tripHandleSubmit, if_neg h]
      exact ⟨fun hc => Option.noConfusion hc, fun hc => absurd hc h⟩
  · by_cases h : td.destination ≠ "" ∧ td.duration ≠ ""
    · simp [tripHandleSubmit, h]
    · simp only [tripHandleSubmit, if_neg h]
      constructor
      · intro _
        by_contra hc
        push_neg at hc
        exact h ⟨hc.1, hc.2⟩
      · intro _
        trivial

/-- C9: single-slot enforcement by disabling.  While `loading` is true,
every form control is disabled and the submit button is disabled
whatever the validity flag, so a submit gesture during flight is a
no-op on the UI state; consequently, over every event sequence from the
idle state, at most one form-initiated `/build-roster` call is
outstanding at any time. -/
theorem single_slot_by_disabling (evs : List UiEvent) :
    controlDisabled true = true ∧
    (∀ v, submitButtonDisabled v true = true) ∧
    (∀ (req : RosterRequest) (i : Nat),
      uiStep { loading := true, inflight := i } (.submit req) =
        { loading := true, inflight := i }) ∧
    (uiRun evs).inflight ≤ 1 := by
  refine ⟨rfl, fun v => by simp [submitButtonDisabled], fun req i => by simp [uiStep], ?_⟩
  have h := uiFold_inv evs { loading := false, inflight := 0 } (by simp [UiInv])
  unfold UiInv at h
  unfold uiRun
  split at h <;> omega

/-- State of a debounced callable
(`PerformanceUtils.debounce(func, wait)`,
`src/frontend/src/performance-config.js` lines 88-99): `pending` is the
single `timeout` timer with its fire instant and the captured
arguments; `fired` records the invocations of `func` as
(instant, arguments) pairs. -/
structure DebounceState (α : Type) where
  pending : Option (Nat × α)
  fired : List (Nat × α)
deriving DecidableEq, Repr

/-- One invocation of the wrapped function returned by
`PerformanceUtils.debounce(func, wait)` at instant `t` with arguments
`a`.  Event-loop semantics: a pending timer due at or before `t` has
already fired — invoking `func` with its captured arguments — before
this call runs; the call then executes `clearTimeout(timeout); timeout
= setTimeout(later, wait)`, scheduling `func(...args)` for `t + wait`
and cancelling any still-pending earlier schedule. -/
def debounceCall (wait : Nat) (s : DebounceState α) (t : Nat) (a : α) : DebounceState α :=
  let fired :=
    match s.pending with
    | some p => if p.1 ≤ t then s.fired ++ [p] else s.fired
    | none => s.fired
  { pending := some (t + wait, a), fired := fired }

/-- All invocations of `func` produced by invoking the wrapped function
at the given (instant, arguments) pairs in order and then letting the
event loop run to quiescence (the final pending timer fires). -/
def debounceRun (wait : Nat) (calls : List (Nat × α)) : List (Nat × α) :=
  let s := calls.foldl (fun s c => debounceCall wait s c.1 c.2) { pending := none, fired := [] }
  match s.pending with
  | some p => s.fired ++ [p]
  | none => s.fired

/-- Helper: while every next call arrives strictly before the pending
timer is due, the fold only reschedules — nothing fires and the pending
timer tracks the most recent call. -/
theorem debounce_fold (wait : Nat) (calls : List (Nat × α)) :
    ∀ (p : Nat × α) (fired : List (Nat × α)),
    List.Chain (fun x y : Nat × α => y.1 < x.1 + wait) p calls →
    calls.foldl (fun s c => debounceCall wait s c.1 c.2)
        { pending := some (p.1 + wait, p.2), fired := fired } =
      { pending := some (((p :: calls).getLast (List.cons_ne_nil p calls)).1 + wait,
                         ((p :: calls).getLast (List.cons_ne_nil p calls)).2)
        fired := fired } := by
  induction calls with
  | nil =>
    intro p fired _
    simp [List.getLast]
  | cons c cs ih =>
    intro p fired hch
    cases hch with
    | cons hpc hcs =>
      have hno : ¬ (p.1 + wait ≤ c.1) := Nat.not_le.mpr hpc
      have hstep :
          debounceCall wait { pending := some (p.1 + wait, p.2), fired := fired } c.1 c.2 =
            { pending := some (c.1 + wait, c.2), fired := fired } := by
        simp [debounceCall, hno]
      rw [List.foldl_cons, hstep, ih c fired hcs]
      have hlast : (p :: c :: cs).getLast (List.cons_ne_nil p (c :: cs)) =
          (c :: cs).getLast (List.cons_ne_nil c cs) :=
        List.getLast_cons (List.cons_ne_nil c cs)
      rw [hlast]

/-- C7: debounce coalescing.  For every sequence of `N ≥ 1` calls in
which each call arrives strictly within `wait` of the previous one, the
underlying `func` is invoked exactly once — with the arguments of the
last call, at instant `t_last + wait` (one quiet window after the last
call); every earlier pending invocation is cancelled by the next
call. -/
theorem debounce_coalescing (wait : Nat) (c : Nat × α) (rest : List (Nat × α))
    (hch : List.Chain (fun x y : Nat × α => y.1 < x.1 + wait) c rest) :
    debounceRun wait (c :: rest) =
      [(((c :: rest).getLast (List.cons_ne_nil c rest)).1 + wait,
        ((c :: rest).getLast (List.cons_ne_nil c rest)).2)] := by
  unfold debounceRun
  rw [List.foldl_cons]
  have h1 : debounceCall wait { pending := none, fired := [] } c.1 c.2 =
      { pending := some (c.1 + wait, c.2), fired := ([] : List (Nat × α)) } := rfl
  rw [h1, debounce_fold wait rest c [] hch]
  rfl

/-- C7 witness: three calls at instants 0, 5, 9 with `wait = 10` (all
gaps below the window) produce exactly one invocation, with the third
call's argument, at instant 19. -/
theorem debounce_coalescing_witness :
    debounceRun 10 [((0 : Nat), (1 : Nat)), (5, 2), (9, 3)] = [(19, 3)] := by
  rw [debounce_coalescing 10 (0, 1) [(5, 2), (9, 3)]
    (List.Chain.cons (by norm_num) (List.Chain.cons (by norm_num) List.Chain.nil))]
  rfl

/-- One invocation of the wrapped function returned by
`PerformanceUtils.throttle(func, limit)`
(`src/frontend/src/performance-config.js` lines 101-113) at instant `t`
with arguments `a`.  The state is the `inThrottle` flag — represented
by the instant at which the scheduled `setTimeout(() => inThrottle =
false, limit)` reset fires (`none` = flag clear) — together with the
record of invocations of `func`.  Event-loop semantics: a reset timer
due at or before `t` has fired, clearing the flag, before the call
runs; then, if the flag is clear, `func.apply(context, args)` runs
immediately and the flag is set with a reset due at `t + limit`;
otherwise the call is dropped (not queued). -/
def throttleCall (limit : Nat) (s : Option Nat × List (Nat × α)) (t : Nat) (a : α) :
    Option Nat × List (Nat × α) :=
  let st : Option Nat :=
    match s.1 with
    | some e => if e ≤ t then none else some e
    | none => none
  match st with
  | none => (some (t + limit), s.2 ++ [(t, a)])
  | some e => (some e, s.2)

/-- All invocations of `func` produced by invoking the wrapped function
at the given (instant, arguments) pairs in order, starting with the
flag clear. -/
def throttleRun (limit : Nat) (calls : List (Nat × α)) : List (Nat × α) :=
  (calls.foldl (fun s c => throttleCall limit s c.1 c.2) (none, [])).2

/-- Invariant carried through a throttled call sequence whose first
call is `c0` and whose calls so far were at instants `≤ tp`: the fired
list is nonempty, begins with `c0`, the flag's reset is due one `limit`
after the last firing, the last firing is not in the future, and
consecutive firings being at least `limit` apart gives the arithmetic
bound `limit * (#fired - 1) + c0.1 ≤ last firing instant`. -/
def ThrottleInv (limit : Nat) (c0 : Nat × α) (tp : Nat)
    (s : Option Nat × List (Nat × α)) : Prop :=
  ∃ lst : Nat × α,
    s.2.head? = some c0 ∧
    s.2.getLast? = some lst ∧
    s.1 = some (lst.1 + limit) ∧
    lst.1 ≤ tp ∧
    limit * (s.2.length - 1) + c0.1 ≤ lst.1

/-- Helper: a single throttled call preserves the invariant. -/
theorem throttleCall_preserves (limit : Nat) (c0 : Nat × α) (tp : Nat)
    (s : Option Nat × List (Nat × α)) (t : Nat) (a : α)
    (htp : tp ≤ t) (h : ThrottleInv limit c0 tp s) :
    ThrottleInv limit c0 t (throttleCall limit s t a) := by
  obtain ⟨lst, hhead, hlast, hpend, hle, hlen⟩ := h
  obtain ⟨tail, htail⟩ : ∃ tail, s.2 = c0 :: tail := by
    cases hs : s.2 with
    | nil => rw [hs] at hhead; exact absurd hhead (by simp)
    | cons x xs =>
      rw [hs] at hhead
      simp only [List.head?_cons, Option.some.injEq] at hhead
      exact ⟨xs, by simp [hs, hhead]⟩
  by_cases hadm : lst.1 + limit ≤ t
  · -- the reset timer has fired: the call is admitted and `func` invoked
    have hstep : throttleCall limit s t a = (some (t + limit), s.2 ++ [(t, a)]) := by
      simp [throttleCall, hpend, hadm]
    rw [hstep]
    refine ⟨(t, a), ?_, ?_, rfl, le_refl t, ?_⟩
    · rw [htail]; rfl
    · simp
    · have h1 : s.2.length ≥ 1 := by rw [htail]; simp
      have h2 : limit * (s.2.length - 1) + c0.1 + limit ≤ lst.1 + limit :=
        Nat.add_le_add_right hlen limit
      have h3 : limit * ((s.2 ++ [(t, a)]).length - 1) + c0.1 =
          limit * (s.2.length - 1) + c0.1 + limit := by
        simp only [List.length_append, List.length_cons, List.length_nil]
        have : s.2.length + 1 - 1 = (s.2.length - 1) + 1 := by omega
        rw [this, Nat.mul_succ]
        ring
      rw [h3]
      exact le_trans h2 hadm
  · -- still throttled: the call is dropped
    have hstep : throttleCall limit s t a = (some (lst.1 + limit), s.2) := by
      simp [throttleCall, hpend, hadm]
    rw [hstep]
    exact ⟨lst, hhead, hlast, rfl, le_trans hle htp, hlen⟩

/-- Helper: folding a nondecreasing call sequence preserves the
invariant, with the time bound advanced to the last call instant. -/
theorem throttle_fold (limit : Nat) (cs : List (Nat × α)) :
    ∀ (c0 p : Nat × α) (s : Option Nat × List (Nat × α)),
    List.Chain (fun x y : Nat × α => x.1 ≤ y.1) p cs →
    ThrottleInv limit c0 p.1 s →
    ThrottleInv limit c0 ((p :: cs).getLast (List.cons_ne_nil p cs)).1
      (cs.foldl (fun s c => throttleCall limit s c.1 c.2) s) := by
  induction cs with
  | nil =>
    intro c0 p s _ h
    simpa [List.getLast] using h
  | cons c cs ih =>
    intro c0 p s hch hinv
    cases hch with
    | cons hpc hcs =>
      have h1 := throttleCall_preserves limit c0 p.1 s c.1 c.2 hpc hinv
      have h2 := ih c0 c (throttleCall limit s c.1 c.2) hcs h1
      rw [List.foldl_cons]
      rwa [List.getLast_cons (List.cons_ne_nil c cs)]

/-- C8: throttle dropping.  For every nondecreasing call sequence with
first call `c` and positive interval `limit`: the first call invokes
`func` immediately (it heads the fired list with its own instant and
arguments); a call arriving strictly before the reset instant is
dropped without queueing, while a call at or after it is admitted
immediately; and the number of invocations over the sequence's span
`D = t_last - t_first` is at most `⌈D / limit⌉ + 1`. -/
theorem throttle_dropping (limit : Nat) (c : Nat × α) (rest : List (Nat × α))
    (hl : 0 < limit)
    (hch : List.Chain (fun x y : Nat × α => x.1 ≤ y.1) c rest) :
    (throttleRun limit (c :: rest)).head? = some c ∧
    (throttleRun limit (c :: rest)).length ≤
      (((c :: rest).getLast (List.cons_ne_nil c rest)).1 - c.1 + limit - 1) / limit + 1 ∧
    (∀ (e t : Nat) (a : α) (fired : List (Nat × α)), t < e →
      throttleCall limit (some e, fired) t a = (some e, fired)) ∧
    (∀ (e t : Nat) (a : α) (fired : List (Nat × α)), e ≤ t →
      throttleCall limit (some e, fired) t a = (some (t + limit), fired ++ [(t, a)])) := by
  have hinit : ThrottleInv limit c c.1 (throttleCall limit (none, []) c.1 c.2) := by
    refine ⟨(c.1, c.2), ?_, ?_, rfl, le_refl c.1, ?_⟩
    · rfl
    · rfl
    · simp [throttleCall]
  have hfold := throttle_fold limit rest c c (throttleCall limit (none, []) c.1 c.2) hch hinit
  obtain ⟨lst, hhead, hlast, _hpend, hle, hlen⟩ := hfold
  have hrun : throttleRun limit (c :: rest) =
      (rest.foldl (fun s c => throttleCall limit s c.1 c.2)
        (throttleCall limit (none, []) c.1 c.2)).2 := rfl
  refine ⟨?_, ?_, ?_, ?_⟩
  · rw [hrun]; exact hhead
  · rw [hrun]
    generalize hgen : (rest.foldl (fun s c => throttleCall limit s c.1 c.2)
        (throttleCall limit (none, []) c.1 c.2)).2 = fired at hhead hlen ⊢
    generalize hLg : ((c :: rest).getLast (List.cons_ne_nil c rest)).1 = L at hle ⊢
    have hne : fired ≠ [] := by
      intro hnil
      rw [hnil] at hhead
      exact absurd hhead (by simp)
    have hpos : 1 ≤ fired.length := List.length_pos.mpr hne
    have hD : (fired.length - 1) * limit ≤ L - c.1 := by
      rw [Nat.mul_comm]
      omega
    have hdiv : fired.length - 1 ≤ (L - c.1) / limit :=
      (Nat.le_div_iff_mul_le hl).mpr hD
    have hceil : (L - c.1) / limit ≤ (L - c.1 + limit - 1) / limit :=
      Nat.div_le_div_right (by omega)
    omega
  · intro e t a fired ht
    simp [throttleCall, Nat.not_le.mpr ht]
  · intro e t a fired ht
    simp [throttleCall, ht]

/-- C8 witness: with `limit = 5` and calls at instants 0, 3, 7, 12, the
first call fires immediately and the invocation count respects the
`⌈12 / 5⌉ + 1 = 4` bound (the call at instant 3 is dropped). -/
theorem throttle_dropping_witness :
    (throttleRun 5 [((0 : Nat), (10 : Nat)), (3, 20), (7, 30), (12, 40)]).head? = some (0, 10) ∧
    (throttleRun 5 [((0 : Nat), (10 : Nat)), (3, 20), (7, 30), (12, 40)]).length ≤ 4 := by
  have h := throttle_dropping 5 ((0 : Nat), (10 : Nat)) [(3, 20), (7, 30), (12, 40)]
    (by norm_num)
    (List.Chain.cons (by norm_num)
      (List.Chain.cons (by norm_num) (List.Chain.cons (by norm_num) List.Chain.nil)))
  exact ⟨h.1, by simpa using h.2.1⟩

end TripPlanner
